import Mathlib

/-!
# Verification of the ADI visit-structurer extraction/normalization engine

Shallow embedding of the Python sources of the `adi-visit-structurer`
repository (`src/extract_rules.py`, `src/normalize.py`, `src/quality.py`,
`src/run_pipeline.py`) together with theorems settling the frozen claims
about the natural-language specification.

Strings are modelled as Lean `String`/`List Char`; Python `re` patterns are
embedded as bespoke scanners that reproduce the leftmost-search,
greedy-with-backtracking semantics of each concrete pattern used by the
sources; `rapidfuzz.fuzz.partial_ratio` (an external library) is modelled by
its documented semantics: the best normalized indel similarity of the shorter
string against the substrings of the longer one.
-/

namespace ADI

/-! ## Character and string utilities (Python `str` semantics) -/

/-- Python whitespace characters recognized by `str.strip`, `\s` and
`str.split` for the ASCII range: space, `\t`, `\n`, `\r`, `\v`, `\f`. -/
def isPySpace (c : Char) : Bool :=
  c = ' ' || c = '\t' || c = '\n' || c = '\r' || c.toNat = 11 || c.toNat = 12

/-- Python `str.lower` restricted to the Latin-1 range actually used by the
notes: ASCII `A`-`Z` and the accented uppercase letters `À`-`Þ` (except `×`)
map to their lowercase forms by adding 32 to the code point. -/
def charLower (c : Char) : Char :=
  if 'A' ≤ c ∧ c ≤ 'Z' then Char.ofNat (c.toNat + 32)
  else if 0xC0 ≤ c.toNat ∧ c.toNat ≤ 0xDE ∧ c.toNat ≠ 0xD7 then Char.ofNat (c.toNat + 32)
  else c

/-- Word characters for `re` `\b`/`\w` (Unicode mode): ASCII alphanumerics,
underscore, and the accented Italian vowels appearing in the notes. -/
def isWordChar (c : Char) : Bool :=
  c.isAlphanum || c = '_' ||
    c ∈ ['à', 'è', 'é', 'ì', 'ò', 'ù', 'À', 'È', 'É', 'Ì', 'Ò', 'Ù']

def lowerL (l : List Char) : List Char := l.map charLower

/-- Python `str.strip()` (whitespace from both ends). -/
def stripWs (l : List Char) : List Char :=
  ((l.dropWhile isPySpace).reverse.dropWhile isPySpace).reverse

/-- `re.sub(r"\s+", " ", ·)`: collapse every whitespace run to one space. -/
def collapseWsAux : Bool → List Char → List Char
  | _, [] => []
  | prevSpace, c :: cs =>
    if isPySpace c then
      if prevSpace then collapseWsAux true cs else ' ' :: collapseWsAux true cs
    else c :: collapseWsAux false cs

def collapseWs (l : List Char) : List Char := collapseWsAux false l

/-- Python `str.rstrip(".")`: drop all trailing `'.'` characters. -/
def rstripDots (l : List Char) : List Char :=
  (l.reverse.dropWhile (· = '.')).reverse

/-- Python substring test `p in t` on character lists. -/
def isSubL (p t : List Char) : Bool := t.tails.any (fun s => p.isPrefixOf s)

/-- Python substring test `p in t` on strings. -/
def isSub (p t : String) : Bool := isSubL p.data t.data

/-- Decidable-equality membership of a string in a list of strings. -/
def elemS (x : String) (l : List String) : Bool := l.any (fun y => decide (x = y))

/-- Python `str.splitlines()` for `\n`-separated text. -/
def splitNl : List Char → List (List Char)
  | [] => []
  | c :: cs =>
    match splitNl cs with
    | [] => if c = '\n' then [[], []] else [[c]]
    | l :: ls => if c = '\n' then [] :: l :: ls else (c :: l) :: ls

/-- `[l.strip() for l in text.splitlines() if l.strip()]`. -/
def pyLines (text : String) : List (List Char) :=
  ((splitNl text.data).map stripWs).filter (fun l => !l.isEmpty)

/-! ## rapidfuzz `fuzz.partial_ratio` model

`fuzz.partial_ratio(s1, s2)` searches for the optimal alignment of the
shorter string inside the longer one and returns the normalized indel
similarity `100 * 2 * lcs(a, w) / (|a| + |w|)` of the best window `w`.
We model the threshold test `partial_ratio(s1, s2) >= θ` by quantifying over
all (nonempty) contiguous substrings `w` of the longer string, comparing with
cross-multiplication (`θ * (|a| + |w|) ≤ 200 * lcs(a, w)`); when either side
is empty the library returns 0, hence `false` here. The longest common
subsequence is computed by the standard row-update dynamic program. -/

/-- One row update of the LCS dynamic program: `row` holds, for each prefix of
`a`, the LCS length with the window consumed so far; the result is the row
after also consuming `c`.  `prev` is the entry just computed on the new row. -/
def lcsRowAux : List Char → List Nat → Nat → Char → List Nat
  | [], _, _, _ => []
  | _ :: _, [], _, _ => []
  | x :: xs, rk :: rest, prev, c =>
    let v := if x = c then rk + 1 else Nat.max prev (rest.headD 0)
    v :: lcsRowAux xs rest v c

def lcsRow (a : List Char) (row : List Nat) (c : Char) : List Nat :=
  0 :: lcsRowAux a row 0 c

/-- Scan a suffix `s` of the haystack, growing the window one character at a
time, and report whether some window reaches the threshold. -/
def fireAlong (a : List Char) (θ la : Nat) : List Nat → Nat → List Char → Bool
  | _, _, [] => false
  | row, len, c :: cs =>
    let row' := lcsRow a row c
    let len' := len + 1
    if θ * (la + len') ≤ 200 * row'.getLastD 0 then true
    else fireAlong a θ la row' len' cs

/-- Does some contiguous substring of `b` align with `a` at similarity ≥ θ? -/
def fireShortIn (a b : List Char) (θ : Nat) : Bool :=
  b.tails.any (fun s => fireAlong a θ a.length (List.replicate (a.length + 1) 0) 0 s)

/-- `fuzz.partial_ratio(s1, s2) >= θ` (θ given in percent). -/
def fuzzRatioGe (s1 s2 : String) (θ : Nat) : Bool :=
  let a := s1.data
  let b := s2.data
  if a.isEmpty || b.isEmpty then false
  else if a.length ≤ b.length then fireShortIn a b θ
  else fireShortIn b a θ

/-! ## `src/normalize.py` -/

/-- `PROBLEM_VOCAB` of `src/normalize.py` (a Python `set`, here a list). -/
def PROBLEM_VOCAB : List String :=
  ["ipertensione", "diabete_tipo_2", "lesione_da_pressione", "dolore_cronico",
   "scompenso_cardiaco", "bpco", "caduta", "rischio_caduta", "disidratazione",
   "malnutrizione"]

/-- `SYNONYM_MAP` of `src/normalize.py` in insertion order. -/
def SYNONYM_MAP : List (String × String) :=
  [("ipertensione arteriosa", "ipertensione"),
   ("ipertensione", "ipertensione"),
   ("pressione alta", "ipertensione"),
   ("ipertensone", "ipertensione"),
   ("ipertensone arteriosa", "ipertensione"),
   ("diabete tipo 2", "diabete_tipo_2"),
   ("diabete mellito tipo 2", "diabete_tipo_2"),
   ("diabete tipo2", "diabete_tipo_2"),
   ("lesione da pressione", "lesione_da_pressione"),
   ("piaga da decubito", "lesione_da_pressione"),
   ("ulcera da pressione", "lesione_da_pressione"),
   ("dolore cronico", "dolore_cronico"),
   ("bpco", "bpco"),
   ("bronchite cronica", "bpco")]

def FUZZY_THRESHOLD : Nat := 88

/-- Characters kept by `_normalize_text`'s
`re.sub(r"[^a-zàèéìòù0-9\s]", " ", t)`. -/
def keepNormChar (c : Char) : Bool :=
  ('a' ≤ c && c ≤ 'z') || c ∈ ['à', 'è', 'é', 'ì', 'ò', 'ù'] ||
    ('0' ≤ c && c ≤ '9') || isPySpace c

/-- `_normalize_text`: lowercase, replace disallowed characters by spaces,
collapse whitespace, strip. -/
def normalize_text (text : String) : List Char :=
  stripWs (collapseWs ((lowerL text.data).map (fun c => if keepNormChar c then c else ' ')))

/-- Python `set.add` modelled on lists: append only when absent. -/
def addSet (acc : List String) (x : String) : List String :=
  if elemS x acc then acc else acc ++ [x]

/-- Leftmost search for a literal that must start at a `\b` word boundary
(used for `re.search(r"\bipertens\w*\b", t)`: the trailing `\w*\b` is always
satisfiable once the stem matches at a boundary). -/
def boundarySearchAux (lit : List Char) : Option Char → List Char → Bool
  | prev, [] =>
    (match prev with | none => true | some p => !isWordChar p) && lit.isEmpty
  | prev, c :: cs =>
    ((match prev with | none => true | some p => !isWordChar p) &&
      lit.isPrefixOf (c :: cs)) ||
    boundarySearchAux lit (some c) cs

def boundarySearch (lit : List Char) (t : List Char) : Bool :=
  boundarySearchAux lit none t

/-- `normalize_problems` of `src/normalize.py`:
exact synonym matching, the `ipertens\w*` regex fallback, fuzzy matching
(phrases of length ≥ 6, threshold 88, skipped when the code is already
found), the final intersection with `PROBLEM_VOCAB`, and `sorted(...)`. -/
def normalize_problems (text : String) : List String :=
  let t := normalize_text text
  let found := SYNONYM_MAP.foldl
    (fun acc pn => if isSubL pn.1.data t then addSet acc pn.2 else acc) []
  let found := if boundarySearch "ipertens".data t then addSet found "ipertensione" else found
  let found := SYNONYM_MAP.foldl
    (fun acc pn =>
      if elemS pn.2 acc then acc
      else if pn.1.length < 6 then acc
      else if fuzzRatioGe pn.1 (String.mk t) FUZZY_THRESHOLD then addSet acc pn.2
      else acc) found
  let found := found.filter (fun p => elemS p PROBLEM_VOCAB)
  found.insertionSort (· ≤ ·)

/-! ### Lemmas about `normalize_problems` -/

theorem elemS_iff {x : String} {l : List String} : elemS x l = true ↔ x ∈ l := by
  simp [elemS]

theorem mem_addSet {x y : String} {acc : List String} :
    x ∈ addSet acc y ↔ x ∈ acc ∨ x = y := by
  unfold addSet
  by_cases h : elemS y acc = true
  · simp only [h, if_true]
    constructor
    · exact Or.inl
    · rintro (hx | rfl)
      · exact hx
      · exact elemS_iff.mp h
  · simp [h, List.mem_append]

theorem nodup_addSet {y : String} {acc : List String} (h : acc.Nodup) :
    (addSet acc y).Nodup := by
  unfold addSet
  by_cases he : elemS y acc = true
  · simpa [he]
  · have hy : y ∉ acc := fun hmem => he (elemS_iff.mpr hmem)
    simp [he, List.nodup_append, h, hy]

/-- Elements accumulated by a fold whose step either keeps the accumulator or
`addSet`s the pair's mapped code. -/
theorem mem_foldl_step (l : List (String × String))
    (step : List String → String × String → List String)
    (hstep : ∀ acc pn, step acc pn = acc ∨ step acc pn = addSet acc pn.2) :
    ∀ {acc x}, x ∈ l.foldl step acc → x ∈ acc ∨ ∃ pn ∈ l, x = pn.2 := by
  induction l with
  | nil => intro acc x hx; exact Or.inl hx
  | cons pn l ih =>
    intro acc x hx
    rcases ih hx with hmem | ⟨qn, hq, rfl⟩
    · rcases hstep acc pn with h | h
      · rw [h] at hmem
        exact Or.inl hmem
      · rw [h] at hmem
        rcases mem_addSet.mp hmem with h' | h'
        · exact Or.inl h'
        · exact Or.inr ⟨pn, List.mem_cons_self .., h'⟩
    · exact Or.inr ⟨qn, List.mem_cons_of_mem _ hq, rfl⟩

theorem nodup_foldl_step (l : List (String × String))
    (step : List String → String × String → List String)
    (hstep : ∀ acc pn, step acc pn = acc ∨ step acc pn = addSet acc pn.2) :
    ∀ {acc}, acc.Nodup → (l.foldl step acc).Nodup := by
  induction l with
  | nil => intro acc h; exact h
  | cons pn l ih =>
    intro acc h
    apply ih
    rcases hstep acc pn with hs | hs <;> rw [hs]
    · exact h
    · exact nodup_addSet h

/-- Every code produced by the Problem Normalizer is a `SYNONYM_MAP` value or
the regex-fallback code `"ipertensione"`. -/
theorem normalize_problems_sources {t : String} {x : String}
    (hx : x ∈ normalize_problems t) :
    (∃ pn ∈ SYNONYM_MAP, x = pn.2) ∨ x = "ipertensione" := by
  unfold normalize_problems at hx
  rw [List.mem_insertionSort] at hx
  have hx' := (List.mem_filter.mp hx).1
  have h2 := mem_foldl_step SYNONYM_MAP
    (fun acc pn =>
      if elemS pn.2 acc then acc
      else if pn.1.length < 6 then acc
      else if fuzzRatioGe pn.1 (String.mk (normalize_text t)) FUZZY_THRESHOLD then
        addSet acc pn.2
      else acc)
    (fun acc pn => by
      by_cases h1 : elemS pn.2 acc = true
      · exact Or.inl (by simp [h1])
      · by_cases h2 : pn.1.length < 6
        · exact Or.inl (by simp [h1, h2])
        · by_cases h3 :
            fuzzRatioGe pn.1 (String.mk (normalize_text t)) FUZZY_THRESHOLD = true
          · exact Or.inr (by simp [h1, h2, h3])
          · exact Or.inl (by simp [h1, h2, h3])) hx'
  rcases h2 with hmem | hval
  · -- the accumulator fed to the fuzzy pass: exact matches plus the regex code
    by_cases hr : boundarySearch "ipertens".data (normalize_text t) = true
    · rw [if_pos hr] at hmem
      rcases mem_addSet.mp hmem with hmem' | rfl
      · rcases mem_foldl_step SYNONYM_MAP
          (fun acc pn => if isSubL pn.1.data (normalize_text t) then addSet acc pn.2 else acc)
          (fun acc pn => by
            by_cases h : isSubL pn.1.data (normalize_text t) = true
            · exact Or.inr (by simp [h])
            · exact Or.inl (by simp [h])) hmem' with h | h
        · simp at h
        · exact Or.inl h
      · exact Or.inr rfl
    · rw [if_neg hr] at hmem
      rcases mem_foldl_step SYNONYM_MAP
        (fun acc pn => if isSubL pn.1.data (normalize_text t) then addSet acc pn.2 else acc)
        (fun acc pn => by
          by_cases h : isSubL pn.1.data (normalize_text t) = true
          · exact Or.inr (by simp [h])
          · exact Or.inl (by simp [h])) hmem with h | h
      · simp at h
      · exact Or.inl h
  · exact Or.inl hval

theorem normalize_problems_subset_vocab {t : String} {x : String}
    (hx : x ∈ normalize_problems t) : x ∈ PROBLEM_VOCAB := by
  unfold normalize_problems at hx
  rw [List.mem_insertionSort] at hx
  exact elemS_iff.mp (List.mem_filter.mp hx).2

theorem normalize_problems_sorted (t : String) :
    List.Pairwise (· < ·) (normalize_problems t) := by
  unfold normalize_problems
  have hsorted :
      List.Sorted (· ≤ ·)
        (List.insertionSort (· ≤ ·)
          ((SYNONYM_MAP.foldl
              (fun acc pn =>
                if elemS pn.2 acc then acc
                else if pn.1.length < 6 then acc
                else if fuzzRatioGe pn.1 (String.mk (normalize_text t)) FUZZY_THRESHOLD then
                  addSet acc pn.2
                else acc)
              (if boundarySearch "ipertens".data (normalize_text t) then
                addSet
                  (SYNONYM_MAP.foldl
                    (fun acc pn =>
                      if isSubL pn.1.data (normalize_text t) then addSet acc pn.2 else acc) [])
                  "ipertensione"
              else
                SYNONYM_MAP.foldl
                  (fun acc pn =>
                    if isSubL pn.1.data (normalize_text t) then addSet acc pn.2 else acc) [])).filter
            (fun p => elemS p PROBLEM_VOCAB))) :=
    List.sorted_insertionSort _ _
  have hnodupBase :
      (SYNONYM_MAP.foldl
          (fun acc pn =>
            if elemS pn.2 acc then acc
            else if pn.1.length < 6 then acc
            else if fuzzRatioGe pn.1 (String.mk (normalize_text t)) FUZZY_THRESHOLD then
              addSet acc pn.2
            else acc)
          (if boundarySearch "ipertens".data (normalize_text t) then
            addSet
              (SYNONYM_MAP.foldl
                (fun acc pn =>
                  if isSubL pn.1.data (normalize_text t) then addSet acc pn.2 else acc) [])
              "ipertensione"
          else
            SYNONYM_MAP.foldl
              (fun acc pn =>
                if isSubL pn.1.data (normalize_text t) then addSet acc pn.2 else acc) [])).Nodup := by
    apply nodup_foldl_step
    · intro acc pn
      by_cases h1 : elemS pn.2 acc = true
      · exact Or.inl (by simp [h1])
      · by_cases h2 : pn.1.length < 6
        · exact Or.inl (by simp [h1, h2])
        · by_cases h3 :
            fuzzRatioGe pn.1 (String.mk (normalize_text t)) FUZZY_THRESHOLD = true
          · exact Or.inr (by simp [h1, h2, h3])
          · exact Or.inl (by simp [h1, h2, h3])
    · have hinner :
          (SYNONYM_MAP.foldl
            (fun acc pn =>
              if isSubL pn.1.data (normalize_text t) then addSet acc pn.2 else acc)
            ([] : List String)).Nodup := by
        apply nodup_foldl_step
        · intro acc pn
          by_cases h : isSubL pn.1.data (normalize_text t) = true
          · exact Or.inr (by simp [h])
          · exact Or.inl (by simp [h])
        · exact List.nodup_nil
      by_cases hr : boundarySearch "ipertens".data (normalize_text t) = true
      · rw [if_pos hr]
        exact nodup_addSet hinner
      · rw [if_neg hr]
        exact hinner
  have hnodup := ((List.perm_insertionSort (· ≤ ·) _).nodup_iff).mpr
    (hnodupBase.filter (fun p => elemS p PROBLEM_VOCAB))
  exact (List.Pairwise.and hsorted hnodup).imp
    (fun h => lt_of_le_of_ne h.1 h.2)

/-! ## Regex scanner helpers

Each `re` pattern of `src/extract_rules.py` is embedded as a bespoke scanner.
`reSearch f t` reproduces `re.search`: `f` is tried at every position from the
left (receiving the previous character for `\b` tests) and the first success
wins.  Counted digit groups (`\d{2,3}` etc.) are matched greedily with
backtracking through `tryNums`. -/

def skipWs (s : List Char) : List Char := s.dropWhile isPySpace

/-- Case-insensitive literal match (for `re.IGNORECASE` patterns); returns the
rest of the input after the literal. -/
def matchCI : List Char → List Char → Option (List Char)
  | [], s => some s
  | _ :: _, [] => none
  | p :: ps, c :: cs => if charLower c = charLower p then matchCI ps cs else none

/-- Case-sensitive literal match; returns the rest of the input. -/
def matchLit : List Char → List Char → Option (List Char)
  | [], s => some s
  | _ :: _, [] => none
  | p :: ps, c :: cs => if c = p then matchLit ps cs else none

def toNatD (ds : List Char) : Nat := ds.foldl (fun n c => n * 10 + (c.toNat - 48)) 0

/-- Greedy counted digit group: try each count (given largest first), pass the
digits and the rest to the continuation, and backtrack on its failure. -/
def tryNums {α} : List Nat → List Char → (List Char → List Char → Option α) → Option α
  | [], _, _ => none
  | n :: ns, s, k =>
    let ds := s.take n
    if ds.length = n ∧ ds.all Char.isDigit then
      match k ds (s.drop n) with
      | some r => some r
      | none => tryNums ns s k
    else tryNums ns s k

/-- `\b` before the match position, given the preceding character. -/
def bOk (prev : Option Char) : Bool :=
  match prev with
  | none => true
  | some p => !isWordChar p

/-- `\b` right after a word character, given the rest of the input. -/
def bAfterW (rest : List Char) : Bool :=
  match rest with
  | [] => true
  | c :: _ => !isWordChar c

/-- Leftmost `re.search`: try `f` at every position (with the previous
character for boundary tests), first success wins. -/
def searchOAux {α} (f : Option Char → List Char → Option α) :
    Option Char → List Char → Option α
  | prev, [] => f prev []
  | prev, c :: cs =>
    match f prev (c :: cs) with
    | some r => some r
    | none => searchOAux f (some c) cs

def reSearch {α} (f : Option Char → List Char → Option α) (t : List Char) : Option α :=
  searchOAux f none t

/-! ## `src/extract_rules.py` -/

/-- Days per month with the Gregorian leap rule (as `dateutil` validates). -/
def daysInMonth (y m : Nat) : Nat :=
  if m = 2 then (if y % 4 = 0 ∧ (y % 100 ≠ 0 ∨ y % 400 = 0) then 29 else 28)
  else if m = 4 ∨ m = 6 ∨ m = 9 ∨ m = 11 then 30 else 31

/-- Modelled from `dateutil.parser.parse(ـ, dayfirst=True)` day/month
resolution: prefer day-first; if that is invalid but the swap is valid,
swap; otherwise parsing raises (here `none`). Returns `(day, month)`. -/
def duResolve (a b y : Nat) : Option (Nat × Nat) :=
  if 1 ≤ b ∧ b ≤ 12 ∧ 1 ≤ a ∧ a ≤ daysInMonth y b then some (a, b)
  else if 1 ≤ a ∧ a ≤ 12 ∧ 1 ≤ b ∧ b ≤ daysInMonth y a then some (b, a)
  else none

def pad2 (n : Nat) : String := if n < 10 then "0" ++ toString n else toString n

def pad4 (n : Nat) : String :=
  String.mk (List.replicate (4 - (toString n).length) '0') ++ toString n

/-- `datetime.isoformat()` for a whole-minute timestamp. -/
def isoFormat (y m d h mi : Nat) : String :=
  pad4 y ++ "-" ++ pad2 m ++ "-" ++ pad2 d ++ "T" ++ pad2 h ++ ":" ++ pad2 mi ++ ":00"

/-- Scanner for `(\d{1,2}/\d{1,2}/\d{4})\s*(?:ore|alle)?\s*(\d{1,2}:\d{2})`:
returns the two date fields, the year, hour and minute. -/
def dtAt (_ : Option Char) (s : List Char) : Option (Nat × Nat × Nat × Nat × Nat) :=
  tryNums [2, 1] s fun d1 r1 =>
    match r1 with
    | '/' :: r2 =>
      tryNums [2, 1] r2 fun d2 r3 =>
        match r3 with
        | '/' :: r4 =>
          tryNums [4] r4 fun yr r5 =>
            let afterOpt : List Char → Option (Nat × Nat) := fun r =>
              tryNums [2, 1] (skipWs r) fun hh r' =>
                match r' with
                | ':' :: r'' =>
                  tryNums [2] r'' fun mm _ => some (toNatD hh, toNatD mm)
                | _ => none
            let r6 := skipWs r5
            let time :=
              (match matchCI "ore".data r6 with
               | some r => afterOpt r
               | none => none).orElse fun _ =>
              (match matchCI "alle".data r6 with
               | some r => afterOpt r
               | none => none).orElse fun _ => afterOpt r6
            match time with
            | some (hh, mm) => some (toNatD d1, toNatD d2, toNatD yr, hh, mm)
            | none => none
        | _ => none
    | _ => none

/-- `extract_datetime` of `src/extract_rules.py`: first pattern match, parsed
day-before-month, ISO string on success, `None` on no match or parse failure
(`dateutil` raises on out-of-range fields). -/
def extract_datetime (text : String) : Option String :=
  match reSearch dtAt text.data with
  | none => none
  | some (a, b, yr, hh, mm) =>
    if hh ≤ 23 ∧ mm ≤ 59 then
      match duResolve a b yr with
      | some (d, m) => some (isoFormat yr m d hh mm)
      | none => none
    else none

/-! ### Blood pressure -/

/-- `allowed_cues` of `extract_bp` (checked as substrings of the lowercased
line). -/
def bpCues : List String :=
  ["pa", "pressione", "parametri", "valori", "mmhg", "fc", "bpm", "temp", " t "]

/-- `re.search(r"\b\d{1,2}/\d{1,2}/\d{2,4}\b", line)`: a date-shaped token. -/
def dateTokenAt (prev : Option Char) (s : List Char) : Option Unit :=
  if bOk prev then
    tryNums [2, 1] s fun _ r1 =>
      match r1 with
      | '/' :: r2 =>
        tryNums [2, 1] r2 fun _ r3 =>
          match r3 with
          | '/' :: r4 =>
            tryNums [4, 3, 2] r4 fun _ r5 => if bAfterW r5 then some () else none
          | _ => none
      | _ => none
  else none

def hasDateToken (line : List Char) : Bool := (reSearch dateTokenAt line).isSome

/-- Shared tail of the BP patterns: `(\d{2,3})` then a separator then
`(\d{2,3})` with a final `\b` (plus, for pattern 4, an optional `mmhg`). -/
def bpPair (sep : Char → Bool) (mmhgOpt : Bool) (s : List Char) : Option (Nat × Nat) :=
  tryNums [3, 2] s fun g1 r1 =>
    match skipWs r1 with
    | c :: r2 =>
      if sep c then
        tryNums [3, 2] (skipWs r2) fun g2 r3 =>
          let tailOk :=
            bAfterW r3 ||
              (mmhgOpt &&
                match matchCI "mmhg".data (skipWs r3) with
                | some r4 => bAfterW r4
                | none => false)
          if tailOk then some (toNatD g1, toNatD g2) else none
      else none
    | [] => none

/-- Pattern 1/2: `\bPA\s*[:=]?\s*(\d{2,3})\s*/\s*(\d{2,3})\b` (with the
optional `[:=]` for pattern 1, without it for pattern 2). -/
def bpPatPA (colon : Bool) (prev : Option Char) (s : List Char) : Option (Nat × Nat) :=
  if bOk prev then
    match matchCI "pa".data s with
    | some r1 =>
      let r2 := skipWs r1
      let r3 :=
        if colon then
          match r2 with
          | c :: r => if c = ':' ∨ c = '=' then r else r2
          | [] => r2
        else r2
      bpPair (· = '/') false (skipWs r3)
    | none => none
  else none

/-- Pattern 3: `\bpressione` then `(\d{2,3})`, a `-` or `/` separator
(each side with `\s*`), then `(\d{2,3})\b`. -/
def bpPatPress (prev : Option Char) (s : List Char) : Option (Nat × Nat) :=
  if bOk prev then
    match matchCI "pressione".data s with
    | some r1 => bpPair (fun c => c = '-' ∨ c = '/') false (skipWs r1)
    | none => none
  else none

/-- Pattern 4: `\b(\d{2,3})\s*/\s*(\d{2,3})\s*(?:mmhg)?\b`. -/
def bpPatSlash (prev : Option Char) (s : List Char) : Option (Nat × Nat) :=
  if bOk prev then bpPair (· = '/') true s else none

/-- Pattern 5 (last resort): `\b(\d{2,3})\s*-\s*(\d{2,3})\b`. -/
def bpPatDash (prev : Option Char) (s : List Char) : Option (Nat × Nat) :=
  if bOk prev then bpPair (· = '-') false s else none

/-- The ordered `bp_patterns` cascade of `extract_bp`. -/
def bpPatterns : List (Option Char → List Char → Option (Nat × Nat)) :=
  [bpPatPA true, bpPatPA false, bpPatPress, bpPatSlash, bpPatDash]

/-- The per-line pattern loop of `extract_bp`: first pattern whose match also
passes the `70 ≤ sys ≤ 250` and `40 ≤ dia ≤ 150` sanity checks. -/
def bpLineScan : List (Option Char → List Char → Option (Nat × Nat)) →
    List Char → Option (Nat × Nat)
  | [], _ => none
  | pat :: pats, line =>
    match reSearch pat line with
    | some (sys, dia) =>
      if 70 ≤ sys ∧ sys ≤ 250 ∧ 40 ≤ dia ∧ dia ≤ 150 then some (sys, dia)
      else bpLineScan pats line
    | none => bpLineScan pats line

/-- `any(cue in low for cue in allowed_cues)`: the "clinical looking" gate. -/
def hasCueLine (line : List Char) : Bool :=
  bpCues.any (fun cue => isSubL cue.data (lowerL line))

/-- `"pa" in low or "pressione" in low`: the explicit BP cue that overrides
the date gate. -/
def paPressCue (line : List Char) : Bool :=
  isSubL "pa".data (lowerL line) || isSubL "pressione".data (lowerL line)

/-- The line loop of `extract_bp`: cue gating, date gating, pattern cascade. -/
def bpLines : List (List Char) → Option Nat × Option Nat
  | [] => (none, none)
  | line :: rest =>
    if !hasCueLine line then bpLines rest
    else if hasDateToken line && !paPressCue line then bpLines rest
    else
      match bpLineScan bpPatterns line with
      | some (sys, dia) => (some sys, some dia)
      | none => bpLines rest

/-- `extract_bp` of `src/extract_rules.py`. -/
def extract_bp (text : String) : Option Nat × Option Nat :=
  bpLines (pyLines text)

/-! ### Heart rate, temperature, SpO2 -/

/-- Tail `\s*[:=]?\s*` between a label and its value. -/
def labelSep (s : List Char) : List Char :=
  let r := skipWs s
  match r with
  | c :: r' => if c = ':' ∨ c = '=' then skipWs r' else r
  | [] => r

/-- `\bFC\s*[:=]?\s*(\d{2,3})\b` / `\bHR\s*[:=]?\s*(\d{2,3})\b`. -/
def hrLabelAt (lab : String) (prev : Option Char) (s : List Char) : Option Nat :=
  if bOk prev then
    match matchCI lab.data s with
    | some r1 =>
      tryNums [3, 2] (labelSep r1) fun g r2 => if bAfterW r2 then some (toNatD g) else none
    | none => none
  else none

/-- `\bfrequenza\s*(\d{2,3})\s*(?:bpm)?\b`. -/
def hrFreqAt (prev : Option Char) (s : List Char) : Option Nat :=
  if bOk prev then
    match matchCI "frequenza".data s with
    | some r1 =>
      tryNums [3, 2] (skipWs r1) fun g r2 =>
        let tailOk :=
          bAfterW r2 ||
            (match matchCI "bpm".data (skipWs r2) with
             | some r3 => bAfterW r3
             | none => false)
        if tailOk then some (toNatD g) else none
    | none => none
  else none

/-- `\b(\d{2,3})\s*bpm\b`. -/
def hrBpmAt (prev : Option Char) (s : List Char) : Option Nat :=
  if bOk prev then
    tryNums [3, 2] s fun g r1 =>
      match matchCI "bpm".data (skipWs r1) with
      | some r2 => if bAfterW r2 then some (toNatD g) else none
      | none => none
  else none

/-- `extract_hr` of `src/extract_rules.py`: ordered cascade, first value in
`[30, 220]`. -/
def extract_hr (text : String) : Option Nat :=
  let pats : List (Option Char → List Char → Option Nat) :=
    [hrLabelAt "fc", hrLabelAt "hr", hrFreqAt, hrBpmAt]
  let rec go : List (Option Char → List Char → Option Nat) → Option Nat
    | [] => none
    | p :: ps =>
      match reSearch p text.data with
      | some v => if 30 ≤ v ∧ v ≤ 220 then some v else go ps
      | none => go ps
  go pats

/-- `([0-9]{1,2}[.,][0-9])\b` decimal value as tenths. -/
def tempValue (s : List Char) : Option (Nat × List Char) :=
  tryNums [2, 1] s fun ip r1 =>
    match r1 with
    | c :: r2 =>
      if c = '.' ∨ c = ',' then
        tryNums [1] r2 fun fp r3 =>
          if bAfterW r3 then some (toNatD ip * 10 + toNatD fp, r3) else none
      else none
    | [] => none

/-- `\b<label>\s*[:=]?\s*([0-9]{1,2}[.,][0-9])\b`. -/
def tempLabelAt (lab : String) (prev : Option Char) (s : List Char) : Option Nat :=
  if bOk prev then
    match matchCI lab.data s with
    | some r1 => (tempValue (labelSep r1)).map Prod.fst
    | none => none
  else none

/-- `extract_temp` of `src/extract_rules.py`; the decimal value is modelled in
tenths of a degree (`36.5` ↦ `365`), so the sanity check `30.0 ≤ v ≤ 43.0`
becomes `300 ≤ v ≤ 430`. -/
def extract_temp (text : String) : Option Nat :=
  let pats : List (Option Char → List Char → Option Nat) :=
    [tempLabelAt "temperatura", tempLabelAt "temp", tempLabelAt "t"]
  let rec go : List (Option Char → List Char → Option Nat) → Option Nat
    | [] => none
    | p :: ps =>
      match reSearch p text.data with
      | some v => if 300 ≤ v ∧ v ≤ 430 then some v else go ps
      | none => go ps
  go pats

/-- `\b<label>\s*[:=]?\s*(\d{2,3})\s*%?\b` for the SpO2 labels. -/
def spo2LabelAt (lab : String) (prev : Option Char) (s : List Char) : Option Nat :=
  if bOk prev then
    match matchCI lab.data s with
    | some r1 =>
      tryNums [3, 2] (labelSep r1) fun g r2 =>
        let tailOk :=
          bAfterW r2 ||
            (match skipWs r2 with
             | '%' :: r3 =>
               (match r3 with
                | c :: _ => isWordChar c
                | [] => false)
             | _ => false)
        if tailOk then some (toNatD g) else none
    | none => none
  else none

/-- `extract_spo2` of `src/extract_rules.py`: ordered cascade, first value in
`[50, 100]`. -/
def extract_spo2 (text : String) : Option Nat :=
  let pats : List (Option Char → List Char → Option Nat) :=
    [spo2LabelAt "spo2", spo2LabelAt "sato2", spo2LabelAt "saturazione"]
  let rec go : List (Option Char → List Char → Option Nat) → Option Nat
    | [] => none
    | p :: ps =>
      match reSearch p text.data with
      | some v => if 50 ≤ v ∧ v ≤ 100 then some v else go ps
      | none => go ps
  go pats

/-! ### Reason for visit -/

/-- Lazy capture `(.*?)(?:\.|\n|$)`: everything up to the first `.`,
newline, or end of input (`.` does not cross newlines). -/
def lazyCapture (s : List Char) : List Char :=
  s.takeWhile (fun c => c ≠ '.' ∧ c ≠ '\n')

/-- The `(?:\.|\n|$)` terminator actually consumed after a lazy capture. -/
def lazyTerm (s : List Char) : List Char :=
  match s.dropWhile (fun c => c ≠ '.' ∧ c ≠ '\n') with
  | c :: _ => [c]
  | [] => []

/-- `\s+`: at least one whitespace character. -/
def reqWs (s : List Char) : Option (List Char) :=
  match s with
  | c :: _ => if isPySpace c then some (skipWs s) else none
  | [] => none

def toOptStr (l : List Char) : Option String :=
  if l.isEmpty then none else some (String.mk l)

/-- Tier 1: `\bMotivo(?: della visita)?\s*:\s*(.*?)(?:\.|\n|$)`
(returns the raw captured group). -/
def reasonMotivoAt (prev : Option Char) (s : List Char) : Option (List Char) :=
  if bOk prev then
    match matchCI "motivo".data s with
    | some r1 =>
      let colonCapture : List Char → Option (List Char) := fun r =>
        match skipWs r with
        | ':' :: r' => some (lazyCapture (skipWs r'))
        | _ => none
      (match matchCI " della visita".data r1 with
       | some r2 => colonCapture r2
       | none => none).orElse fun _ => colonCapture r1
    | none => none
  else none

/-- Tier 2: `\b(?:Paziente\s+)?Riferisce\s+(.*?)(?:\.|\n|$)`. -/
def reasonRiferisceAt (prev : Option Char) (s : List Char) : Option (List Char) :=
  if bOk prev then
    let core : List Char → Option (List Char) := fun r =>
      match matchCI "riferisce".data r with
      | some r1 =>
        match reqWs r1 with
        | some r2 => some (lazyCapture r2)
        | none => none
      | none => none
    (match matchCI "paziente".data s with
     | some r1 =>
       match reqWs r1 with
       | some r2 => core r2
       | none => none
     | none => none).orElse fun _ => core s
  else none

/-- Tier 3: `\bRiferito\s+(.*?)(?:\.|\n|$)`. -/
def reasonRiferitoAt (prev : Option Char) (s : List Char) : Option (List Char) :=
  if bOk prev then
    match matchCI "riferito".data s with
    | some r1 =>
      match reqWs r1 with
      | some r2 => some (lazyCapture r2)
      | none => none
    | none => none
  else none

/-- `\b\d{1,2}/\d{1,2}/\d{4}\b` (four-digit year, as in the tier-4 header
test of `extract_reason`). -/
def date4TokenAt (prev : Option Char) (s : List Char) : Option Unit :=
  if bOk prev then
    tryNums [2, 1] s fun _ r1 =>
      match r1 with
      | '/' :: r2 =>
        tryNums [2, 1] r2 fun _ r3 =>
          match r3 with
          | '/' :: r4 => tryNums [4] r4 fun _ r5 => if bAfterW r5 then some () else none
          | _ => none
      | _ => none
  else none

/-- `\b\d{1,2}:\d{2}\b`. -/
def timeTokenAt (prev : Option Char) (s : List Char) : Option Unit :=
  if bOk prev then
    tryNums [2, 1] s fun _ r1 =>
      match r1 with
      | ':' :: r2 => tryNums [2] r2 fun _ r3 => if bAfterW r3 then some () else none
      | _ => none
  else none

/-- Tier-4 keyword list of `extract_reason`. -/
def reasonKeywords : List String :=
  ["controllo", "monitoraggio", "rivalutazione", "dolore", "caduta",
   "medicazione", "verifica", "stanchezza", "appetito"]

/-- Tier 4 of `extract_reason`: first stripped line that is not a
date-and-time header, does not start with "visita", and contains a keyword;
returned with trailing periods stripped. -/
def reasonFallback : List (List Char) → Option String
  | [] => none
  | line :: rest =>
    let low := lowerL line
    if (reSearch date4TokenAt line).isSome ∧ (reSearch timeTokenAt line).isSome then
      reasonFallback rest
    else if "visita".data.isPrefixOf low then reasonFallback rest
    else if reasonKeywords.any (fun k => isSubL k.data low) then
      some (String.mk (rstripDots line))
    else reasonFallback rest

/-- `extract_reason` of `src/extract_rules.py`: each of the first three tiers
returns as soon as its pattern matches (yielding `None` when the stripped
capture is empty), and only a failed search falls through to the next tier. -/
def extract_reason (text : String) : Option String :=
  match reSearch reasonMotivoAt text.data with
  | some g => toOptStr (stripWs g)
  | none =>
    match reSearch reasonRiferisceAt text.data with
    | some g => toOptStr (stripWs g)
    | none =>
      match reSearch reasonRiferitoAt text.data with
      | some g => toOptStr (stripWs g)
      | none => reasonFallback (pyLines text)

/-! ### Follow-up -/

/-- Whole-match pattern `\b<word>\b.*?(?:\.|\n|$)` (used for `Programmato`
and `ricontatto`): returns `group(0)` including the consumed terminator. -/
def fuWholeAt (word : String) (prev : Option Char) (s : List Char) :
    Option (List Char) :=
  if bOk prev then
    match matchCI word.data s with
    | some r1 =>
      if bAfterW r1 then
        some (s.take word.length ++ lazyCapture r1 ++ lazyTerm r1)
      else none
    | none => none
  else none

/-- `\bFollow[-\s]?up\s*:\s*(.*?)(?:\.|\n|$)`. -/
def fuFollowAt (prev : Option Char) (s : List Char) : Option (List Char) :=
  if bOk prev then
    match matchCI "follow".data s with
    | some r1 =>
      let core : List Char → Option (List Char) := fun r =>
        match matchCI "up".data r with
        | some r2 =>
          match skipWs r2 with
          | ':' :: r3 => some (lazyCapture (skipWs r3))
          | _ => none
        | none => none
      (match r1 with
       | c :: r2 => if c = '-' ∨ isPySpace c then core r2 else none
       | [] => none).orElse fun _ => core r1
    | none => none
  else none

/-- The group alternative `(prossima settimana|tra\s+\d+\s+giorni)` preceded
by `\b` and followed by `\b`; returns the original matched slice. -/
def fuGroupAt (prev : Option Char) (s : List Char) : Option (List Char) :=
  if bOk prev then
    (match matchCI "prossima settimana".data s with
     | some r => if bAfterW r then some (s.take "prossima settimana".length) else none
     | none => none).orElse fun _ =>
      match matchCI "tra".data s with
      | some r1 =>
        match reqWs r1 with
        | some r2 =>
          let ds := r2.takeWhile Char.isDigit
          if ds.isEmpty then none
          else
            match reqWs (r2.drop ds.length) with
            | some r3 =>
              match matchCI "giorni".data r3 with
              | some r4 =>
                if bAfterW r4 then
                  some (s.take (s.length - r4.length))
                else none
              | none => none
            | none => none
        | none => none
      | none => none
  else none

/-- The lazy gap `.*?` (never crossing a newline) followed by the group of
the `controllo` follow-up pattern. -/
def fuScanGroup : Option Char → List Char → Option (List Char)
  | prev, s =>
    match fuGroupAt prev s with
    | some g => some g
    | none =>
      match s with
      | [] => none
      | c :: cs => if c = '\n' then none else fuScanGroup (some c) cs

/-- `\bcontrollo\b.*?\b(prossima settimana|tra\s+\d+\s+giorni)\b.*?(?:\.|\n|$)`:
the final `.*?(?:\.|\n|$)` is always satisfiable, so the group decides. -/
def fuControlloAt (prev : Option Char) (s : List Char) : Option (List Char) :=
  if bOk prev then
    match matchCI "controllo".data s with
    | some r1 =>
      if bAfterW r1 then
        match r1 with
        | [] => none
        | c :: cs => if c = '\n' then none else fuScanGroup (some c) cs
      else none
    | none => none
  else none

/-- `extract_follow_up` of `src/extract_rules.py`: ordered cascade; a
pattern with a capturing group returns `group(1).strip()`, otherwise
`group(0).strip().rstrip(".")`; either way an empty value yields `None`. -/
def extract_follow_up (text : String) : Option String :=
  match reSearch (fuWholeAt "programmato") text.data with
  | some g0 => toOptStr (rstripDots (stripWs g0))
  | none =>
    match reSearch fuFollowAt text.data with
    | some g => toOptStr (stripWs g)
    | none =>
      match reSearch fuControlloAt text.data with
      | some g => toOptStr (stripWs g)
      | none =>
        match reSearch (fuWholeAt "ricontatto") text.data with
        | some g0 => toOptStr (rstripDots (stripWs g0))
        | none => none

/-! ### Interventions -/

/-- `dict.fromkeys`-style deduplication preserving first occurrence (the
`seen`-set loop at the end of `extract_interventions`). -/
def dedupFirstAux : List String → List String → List String
  | _, [] => []
  | seen, x :: xs =>
    if elemS x seen then dedupFirstAux seen xs
    else x :: dedupFirstAux (seen ++ [x]) xs

def dedupFirst (l : List String) : List String := dedupFirstAux [] l

/-- The vitals-related keyword test of `extract_interventions` (plain
substring checks on the lowercased text). -/
def vitalsKeyword (t : List Char) : Bool :=
  isSubL "parametri".data t || isSubL "pa".data t || isSubL "pressione".data t ||
    isSubL "fc".data t || isSubL "bpm".data t || isSubL "temperatura".data t ||
    isSubL "temp".data t || isSubL "spo2".data t || isSubL "saturazione".data t ||
    isSubL "sato2".data t

/-- `extract_interventions` of `src/extract_rules.py`. -/
def extract_interventions (text : String) : List String :=
  let t := lowerL text.data
  let acc := if isSubL "medicazione".data t then ["medicazione"] else []
  let acc := if vitalsKeyword t then acc ++ ["controllo_parametri_vitali"] else acc
  dedupFirst acc

/-! ## `src/run_pipeline.py`: data model -/

/-- The `clinical.vitals` sub-dictionary (temperature in tenths of a degree,
see `extract_temp`). -/
structure Vitals where
  blood_pressure_systolic : Option Nat
  blood_pressure_diastolic : Option Nat
  heart_rate : Option Nat
  temperature : Option Nat
  spo2 : Option Nat
deriving DecidableEq, Repr

structure Meta where
  record_id : String
  template_type : List String
  visit_datetime : Option String
  operator_role : Option String
deriving DecidableEq, Repr

structure Patient where
  patient_id : String
  age : Option Nat
  sex : Option String
deriving DecidableEq, Repr

structure Clinical where
  reason_for_visit : Option String
  anamnesis_brief : List String
  vitals : Vitals
  consciousness : Option String
  mobility : Option String
  interventions : List String
  critical_issues : List String
  follow_up : Option String
deriving DecidableEq, Repr

structure Coding where
  problems_normalized : List String
deriving DecidableEq, Repr

structure QualityInfo where
  missing_mandatory_fields : List String
  warnings : List String
deriving DecidableEq, Repr

/-- The `ClinicalRecord` dictionary produced by `build_base_record`. -/
structure Record where
  meta : Meta
  patient : Patient
  clinical : Clinical
  coding : Coding
  quality : QualityInfo
deriving DecidableEq, Repr

/-- `build_base_record` of `src/run_pipeline.py`. -/
def build_base_record (rid : String) : Record :=
  { meta :=
      { record_id := rid
        template_type := ["diario_clinico", "presa_in_carico"]
        visit_datetime := none
        operator_role := some "infermiere" }
    patient := { patient_id := "SYNTH-" ++ rid, age := none, sex := none }
    clinical :=
      { reason_for_visit := none
        anamnesis_brief := []
        vitals :=
          { blood_pressure_systolic := none
            blood_pressure_diastolic := none
            heart_rate := none
            temperature := none
            spo2 := none }
        consciousness := none
        mobility := none
        interventions := []
        critical_issues := []
        follow_up := none }
    coding := { problems_normalized := [] }
    quality := { missing_mandatory_fields := [], warnings := [] } }

/-- `extract_vitals_wrapper`: `extract_bp` returns a tuple, so both branches
of the `isinstance` dispatch collapse to the pair projections. -/
def extract_vitals_wrapper (text : String) : Vitals :=
  let bp := extract_bp text
  { blood_pressure_systolic := bp.1
    blood_pressure_diastolic := bp.2
    heart_rate := extract_hr text
    temperature := extract_temp text
    spo2 := extract_spo2 text }

/-- `apply_rules` of `src/run_pipeline.py` (the dynamic `_pick_callable`
resolution finds exactly the `extract_*` functions embedded above;
`EXTRACT_INTERVENTIONS(text) or []` is the identity on lists here). -/
def apply_rules (text : String) (rec : Record) : Record :=
  { rec with
    clinical :=
      { rec.clinical with
        reason_for_visit := extract_reason text
        follow_up := extract_follow_up text
        interventions := extract_interventions text
        vitals := extract_vitals_wrapper text }
    coding := { problems_normalized := normalize_problems text } }

/-- The JSON object returned by the external `llm_extract` collaborator
(`src/llm_extract.py`), as consumed by `apply_hybrid`. -/
structure LlmOut where
  reason_for_visit : Option String
  follow_up : Option String
  interventions : List String
  vitals : Vitals
  problems_normalized : List String
deriving DecidableEq, Repr

/-- `apply_hybrid` of `src/run_pipeline.py`: LLM free-text fields, rule-based
vitals, and `sorted(set(llm_probs) | set(rule_probs))` for the problem codes
(set union modelled as concatenation, deduplication, and sorting). -/
def apply_hybrid (out : LlmOut) (text : String) (rec : Record) : Record :=
  { rec with
    clinical :=
      { rec.clinical with
        reason_for_visit := out.reason_for_visit
        follow_up := out.follow_up
        interventions := out.interventions
        vitals := extract_vitals_wrapper text }
    coding :=
      { problems_normalized :=
          (dedupFirst (out.problems_normalized ++ normalize_problems text)).insertionSort
            (· ≤ ·) } }

/-! ### Post-processing helpers -/

/-- Global `re.sub(r"\b<w0 :: wr>\b", rep, ·)` for a word whose characters are
all word characters: scan left to right, replace non-overlapping boundary
matches, continue after the matched slice (the boundary context stays the
original text).  The `fuel` argument (instantiated with the input length,
which bounds the number of scan steps) only makes the recursion structural. -/
def subWordAux (w0 : Char) (wr rep : List Char) : Nat → Option Char → List Char → List Char
  | 0, _, s => s
  | _ + 1, _, [] => []
  | fuel + 1, prev, c :: cs =>
    if bOk prev ∧ c = w0 ∧ wr.isPrefixOf cs ∧ bAfterW (cs.drop wr.length) then
      rep ++ subWordAux w0 wr rep fuel (some ((c :: wr).getLastD c)) (cs.drop wr.length)
    else c :: subWordAux w0 wr rep fuel (some c) cs

def subWord (w rep : String) (s : List Char) : List Char :=
  match w.data with
  | [] => s
  | w0 :: wr => subWordAux w0 wr rep.data s.length none s

/-- Python `str.replace("+", " e ")`. -/
def plusToE (s : List Char) : List Char :=
  s.flatMap (fun c => if c = '+' then " e ".data else [c])

/-- `normalize_reason` of `src/run_pipeline.py` (`if not reason` treats both
`None` and the empty string as absent). -/
def normalize_reason (reason : Option String) : Option String :=
  match reason with
  | none => none
  | some s0 =>
    if s0.isEmpty then none
    else
      let r := lowerL (stripWs s0.data)
      let r := plusToE r
      let r := stripWs (collapseWs r)
      let r := subWord "dx" "destro" r
      let r := subWord "sx" "sinistro" r
      let r := stripWs (subWord "da giorni" "" r)
      let r := stripWs (collapseWs r)
      some (String.mk r)

/-- `re.match(r"^(?:programmato controllo )?(?:tra )?(\d+)\s*giorni$", s)`:
returns the digit group on success (the optionals backtrack). -/
def fuCanonGiorni (s : List Char) : Option (List Char) :=
  let tryDigits : List Char → Option (List Char) := fun r =>
    let ds := r.takeWhile Char.isDigit
    if ds.isEmpty then none
    else
      match matchLit "giorni".data (skipWs (r.drop ds.length)) with
      | some [] => some ds
      | _ => none
  let tryTra : List Char → Option (List Char) := fun r =>
    (match matchLit "tra ".data r with
     | some r' => tryDigits r'
     | none => none).orElse fun _ => tryDigits r
  (match matchLit "programmato controllo ".data s with
   | some r => tryTra r
   | none => none).orElse fun _ => tryTra s

/-- `normalize_follow_up` of `src/run_pipeline.py`. -/
def normalize_follow_up (fu : Option String) : Option String :=
  match fu with
  | none => none
  | some s0 =>
    let s := collapseWs (lowerL (stripWs s0.data))
    match fuCanonGiorni s with
    | some n => some (String.mk ("programmato controllo tra ".data ++ n ++ " giorni".data))
    | none =>
      if s = "nuovo controllo".data ∨ s = "programmato nuovo controllo".data then
        some "programmato nuovo controllo"
      else some (String.mk s)

/-- `INTERVENTION_VOCAB` of `src/run_pipeline.py`. -/
def INTERVENTION_VOCAB : List String := ["controllo_parametri_vitali", "medicazione"]

/-- `INTERVENTION_SYNONYMS` of `src/run_pipeline.py`. -/
def INTERVENTION_SYNONYMS : List (String × String) :=
  [("controllo parametri", "controllo_parametri_vitali"),
   ("controllo parametri vitali", "controllo_parametri_vitali"),
   ("rilevati parametri", "controllo_parametri_vitali"),
   ("rilevazione parametri", "controllo_parametri_vitali"),
   ("controllo generale", "controllo_parametri_vitali"),
   ("medicazione avanzata", "medicazione"),
   ("medicazione lesione", "medicazione"),
   ("medicazione piaga", "medicazione")]

/-- `dict.get(low, low)` on an association list. -/
def lookupDefault (l : List (String × String)) (k d : String) : String :=
  match l.find? (fun p => p.1 = k) with
  | some p => p.2
  | none => d

/-- `normalize_interventions` of `src/run_pipeline.py`. -/
def normalize_interventions (ints : List String) (text : String)
    (reason : Option String) : List String :=
  let t := lowerL text.data
  let r := lowerL (reason.getD "").data
  let out := ints.foldl
    (fun acc it =>
      let low := String.mk (lowerL (stripWs it.data))
      let mapped := lookupDefault INTERVENTION_SYNONYMS low low
      if elemS mapped INTERVENTION_VOCAB then acc ++ [mapped] else acc) []
  let out :=
    if isSubL "medicazione".data t || isSubL "medicazione".data r ||
        isSubL "piaga".data t || isSubL "lesione".data t || isSubL "decubito".data t then
      out ++ ["medicazione"]
    else out
  let out := dedupFirst out
  out.filter (fun x => elemS x INTERVENTION_VOCAB)

def hasAnyVital (v : Vitals) : Bool :=
  v.blood_pressure_systolic.isSome || v.blood_pressure_diastolic.isSome ||
    v.heart_rate.isSome || v.temperature.isSome || v.spo2.isSome

/-- `postprocess_record` of `src/run_pipeline.py`, as a pure function
following the source's mutation order. -/
def postprocess_record (rec : Record) (text : String) : Record :=
  let reason1 := normalize_reason rec.clinical.reason_for_visit
  let fu1 := normalize_follow_up rec.clinical.follow_up
  let reason2 :=
    match reason1 with
    | none => normalize_reason (extract_reason text)
    | some s => some s
  let fu2 :=
    if fu1 = none ∧ isSubL "nuovo controllo".data (lowerL text.data) then
      some "programmato nuovo controllo"
    else fu1
  let ints := normalize_interventions rec.clinical.interventions text reason2
  let hasV := hasAnyVital rec.clinical.vitals
  let reason3 :=
    if reason2 = none ∧ hasV then some "controllo parametri" else reason2
  let ints2 :=
    if hasV ∧ ¬elemS "controllo_parametri_vitali" ints then
      "controllo_parametri_vitali" :: ints
    else ints
  { rec with
    clinical :=
      { rec.clinical with
        reason_for_visit := reason3
        follow_up := fu2
        interventions := ints2 } }

/-! ## `src/quality.py` -/

/-- A mandatory string field is missing when its value is `None` or `""`
(`get_path` returns the field's value; `v == []` cannot hold for these
three string-valued paths). -/
def isMissingStr (v : Option String) : Bool :=
  match v with
  | none => true
  | some s => s.isEmpty

/-- `quality_check` of `src/quality.py`, returning the result dictionary as
an association list (keys `"missing_mandatory_fields"` and `"warnings"`).
The `vitals` sub-dictionary of a pipeline record always carries its five
keys, so Python's `if vit` truthiness test is always true here. -/
def quality_check (rec : Record) : List (String × List String) :=
  let missing :=
    (if isMissingStr rec.meta.visit_datetime then ["meta.visit_datetime"] else []) ++
    (if isMissingStr rec.meta.operator_role then ["meta.operator_role"] else []) ++
    (if isMissingStr rec.clinical.reason_for_visit then ["clinical.reason_for_visit"] else [])
  let ints := rec.clinical.interventions
  let vit := rec.clinical.vitals
  let warnings :=
    (if ints = [] then ["No interventions extracted from note"] else []) ++
    (if !hasAnyVital vit then ["No vital signs recorded in note"] else []) ++
    (if elemS "controllo_parametri_vitali" ints ∧ !hasAnyVital vit then
      ["Vitals intervention present but no vitals extracted"]
     else [])
  [("missing_mandatory_fields", missing), ("warnings", warnings)]

/-- `q.get(key, [])` on the `quality_check` result dictionary. -/
def qGet (q : List (String × List String)) (k : String) : List String :=
  match q.find? (fun p => p.1 = k) with
  | some p => p.2
  | none => []

/-- The record-finalization step of `main` (`src/run_pipeline.py` lines
352-357): run the quality check (via `run_quality_check`, which falls back to
the one-argument `quality_check(rec)` signature) and attach its results —
note the keys used by `main` (`"missing_fields"`, `"warnings"`). -/
def finalizeRecord (rec : Record) : Record :=
  let q := quality_check rec
  { rec with
    quality :=
      { missing_mandatory_fields := qGet q "missing_fields"
        warnings := qGet q "warnings" } }

/-- One note of `main` in rules-only mode (`PREPROCESS` is an external
collaborator, so `text` stands for the already-preprocessed note text). -/
def runRulesPipeline (rid text : String) : Record :=
  finalizeRecord (postprocess_record (apply_rules text (build_base_record rid)) text)

/-- One note of `main` in hybrid mode, given the collaborator's output. -/
def runHybridPipeline (rid text : String) (out : LlmOut) : Record :=
  finalizeRecord (postprocess_record (apply_hybrid out text (build_base_record rid)) text)

/-! ## Helper lemmas for the claim theorems -/

theorem mem_dedupFirstAux {x : String} :
    ∀ {seen l : List String}, x ∈ dedupFirstAux seen l → x ∈ l := by
  intro seen l
  induction l generalizing seen with
  | nil => intro h; exact absurd h (List.not_mem_nil x)
  | cons y ys ih =>
    intro h
    unfold dedupFirstAux at h
    by_cases hy : elemS y seen = true
    · rw [if_pos hy] at h
      exact List.mem_cons_of_mem _ (ih h)
    · rw [if_neg hy] at h
      rcases List.mem_cons.mp h with rfl | h'
      · exact List.mem_cons_self ..
      · exact List.mem_cons_of_mem _ (ih h')

theorem mem_dedupFirst {x : String} {l : List String} (h : x ∈ dedupFirst l) : x ∈ l :=
  mem_dedupFirstAux h

/-- The line loop of `extract_bp` skips every line on which either gate
fires, so such a list of lines yields `(None, None)`. -/
theorem bpLines_gated :
    ∀ ls : List (List Char),
      (ls.all fun l => !hasCueLine l || (hasDateToken l && !paPressCue l)) = true →
      bpLines ls = (none, none) := by
  intro ls h
  induction ls with
  | nil => rfl
  | cons line rest ih =>
    rw [List.all_cons, Bool.and_eq_true] at h
    obtain ⟨hline, hrest⟩ := h
    unfold bpLines
    cases hc : hasCueLine line with
    | false => simpa [hc] using ih hrest
    | true =>
      rw [hc] at hline
      have hdate : (hasDateToken line && !paPressCue line) = true := by
        simpa using hline
      simpa [hc, hdate] using ih hrest

/-! ## Claim theorems -/

/-- **C1.** The blood-pressure extractor gates lines on clinical cue tokens
before trying any pattern, and discards cue lines that carry a date-shaped
token without an explicit "pa"/"pressione" cue: on any text all of whose
stripped nonempty lines either lack a clinical cue or carry a date token
without "pa"/"pressione", `extract_bp` returns `(None, None)`. -/
theorem extract_bp_date_gate (text : String)
    (h : ((pyLines text).all fun l =>
      !hasCueLine l || (hasDateToken l && !paPressCue l)) = true) :
    extract_bp text = (none, none) :=
  bpLines_gated (pyLines text) h

/-- **C1, witness.** The spec's regression case: the single-line note
`"Visita 24/02/2026 09:10"` has no clinical-cue line, so the extractor
returns `(None, None)`. -/
theorem extract_bp_date_gate_witness :
    extract_bp "Visita 24/02/2026 09:10" = (none, none) :=
  extract_bp_date_gate "Visita 24/02/2026 09:10" (by decide)

/-- **C5.** For every input string, `normalize_problems` returns (without
raising — it is a total function) a strictly increasing (hence sorted and
duplicate-free) list all of whose elements belong to `PROBLEM_VOCAB`. -/
theorem normalize_problems_wellformed (t : String) :
    List.Pairwise (· < ·) (normalize_problems t) ∧
      ((normalize_problems t).all fun c => elemS c PROBLEM_VOCAB) = true := by
  refine ⟨normalize_problems_sorted t, ?_⟩
  rw [List.all_eq_true]
  intro x hx
  exact elemS_iff.mpr (normalize_problems_subset_vocab hx)

/-- **C10.** The interventions extractor's vitals test is a raw substring
check: whenever the lowercased text contains the two-character substring
`"pa"` anywhere (e.g. inside "paziente"), the result contains
`"controllo_parametri_vitali"`. -/
theorem interventions_pa_substring (text : String)
    (h : isSubL "pa".data (lowerL text.data) = true) :
    elemS "controllo_parametri_vitali" (extract_interventions text) = true := by
  have hv : vitalsKeyword (lowerL text.data) = true := by
    unfold vitalsKeyword
    rw [h]
    simp
  unfold extract_interventions
  by_cases hm : isSubL "medicazione".data (lowerL text.data) = true
  · simp only [hv, hm, if_true]
    decide
  · simp only [hv, hm, if_true, if_false]
    decide

/-- **C10, witness.** `"paziente"` contains `"pa"`, so the extractor reports
the vitals intervention even though no vital value occurs in the text. -/
theorem interventions_pa_substring_witness :
    isSubL "pa".data (lowerL "paziente".data) = true ∧
      elemS "controllo_parametri_vitali" (extract_interventions "paziente") = true :=
  ⟨by decide, interventions_pa_substring "paziente" (by decide)⟩

/-- **C2.** `main` attaches `q.get("missing_fields", [])`, but `quality_check`
returns its list under the key `"missing_mandatory_fields"`: the attached
`quality.missing_mandatory_fields` is therefore `[]` for every note, even
while the validator itself computes a nonempty missing list (here, on the
empty note, `["meta.visit_datetime", "clinical.reason_for_visit"]`). -/
theorem missing_fields_never_attached :
    (∀ rid text : String,
      (runRulesPipeline rid text).quality.missing_mandatory_fields = []) ∧
      qGet (quality_check (postprocess_record (apply_rules "" (build_base_record "ADI-0001")) ""))
        "missing_mandatory_fields" = ["meta.visit_datetime", "clinical.reason_for_visit"] := by
  refine ⟨fun rid text => rfl, by decide⟩

/-- **C3.** No rule of `normalize_problems` can produce `"malnutrizione"`:
it is not a value of `SYNONYM_MAP` (exact and fuzzy passes) nor the regex
fallback code, and there is no fatigue/appetite compound rule — in
particular the spec's test input yields a list without it. -/
theorem malnutrizione_never_produced :
    (∀ t : String, elemS "malnutrizione" (normalize_problems t) = false) ∧
      elemS "malnutrizione"
        (normalize_problems "Paziente riferisce stanchezza e scarso appetito.") = false := by
  have hgen : ∀ t : String, elemS "malnutrizione" (normalize_problems t) = false := by
    intro t
    cases h : elemS "malnutrizione" (normalize_problems t) with
    | false => rfl
    | true => exact absurd (normalize_problems_sources (elemS_iff.mp h)) (by decide)
  exact ⟨hgen, hgen _⟩

set_option maxRecDepth 100000 in
set_option maxHeartbeats 1600000 in
/-- **C4.** The bare-token "dolore" rule does not exist in the code: the text
`"dolore al ginocchio"` contains the token `"dolore"` in its normalized
form, yet `normalize_problems` returns the empty list (in particular no
`"dolore_cronico"`): the only routes to that code are the exact phrase
`"dolore cronico"` and its fuzzy match, and neither fires here. -/
theorem dolore_generic_rule_absent :
    normalize_problems "dolore al ginocchio" = [] ∧
      isSubL "dolore".data (normalize_text "dolore al ginocchio") = true :=
  ⟨by decide, by decide⟩

/-- The collaborator output used as concrete input for C6: a problem code
outside the closed vocabulary. -/
def llmOutOOV : LlmOut :=
  { reason_for_visit := none
    follow_up := none
    interventions := []
    vitals :=
      { blood_pressure_systolic := none
        blood_pressure_diastolic := none
        heart_rate := none
        temperature := none
        spo2 := none }
    problems_normalized := ["xyz"] }

/-- **C6, counterexample.** In the hybrid strategy a collaborator-supplied
problem code outside `PROBLEM_VOCAB` survives the merge and the
post-processing pass: with collaborator output `["xyz"]` on the empty note,
the final record still carries `"xyz"`, which is not in the vocabulary. -/
theorem hybrid_keeps_oov_code :
    elemS "xyz" ((runHybridPipeline "ADI-0002" "" llmOutOOV).coding.problems_normalized) = true ∧
      elemS "xyz" PROBLEM_VOCAB = false :=
  ⟨by decide, by decide⟩

/-- **C6, amended.** After the hybrid merge and post-processing, every
element of `coding.problems_normalized` comes from the collaborator's codes
or from `PROBLEM_VOCAB` (the Problem Normalizer's side is vocabulary-closed);
collaborator codes are **not** filtered against the vocabulary. -/
theorem hybrid_problems_from_llm_or_vocab (rid text : String) (out : LlmOut) :
    (((runHybridPipeline rid text out).coding.problems_normalized).all fun x =>
      elemS x out.problems_normalized || elemS x PROBLEM_VOCAB) = true := by
  have hc : (runHybridPipeline rid text out).coding.problems_normalized =
      (dedupFirst (out.problems_normalized ++ normalize_problems text)).insertionSort
        (· ≤ ·) := rfl
  rw [hc, List.all_eq_true]
  intro x hx
  rw [List.mem_insertionSort] at hx
  rcases List.mem_append.mp (mem_dedupFirst hx) with h | h
  · simp [elemS_iff.mpr h]
  · simp [elemS_iff.mpr (normalize_problems_subset_vocab h)]

/-- The note text used as concrete input for C7. -/
def ppTextC7 : String := "Motivo: da da giorni giorni."

/-- **C7.** `postprocess_record` is not idempotent: on the note
`"Motivo: da da giorni giorni."` the first pass normalizes the reason to
`"da giorni"` (the filler-removal `re.sub(r"\bda giorni\b", "", ·)` leaves a
fresh `"da giorni"` behind), and the second pass removes it again, changing
the record. -/
theorem postprocess_not_idempotent :
    (postprocess_record (build_base_record "ADI-0003") ppTextC7).clinical.reason_for_visit
        = some "da giorni" ∧
      (postprocess_record (postprocess_record (build_base_record "ADI-0003") ppTextC7)
          ppTextC7).clinical.reason_for_visit = some "" ∧
      decide (postprocess_record (postprocess_record (build_base_record "ADI-0003") ppTextC7)
          ppTextC7 = postprocess_record (build_base_record "ADI-0003") ppTextC7) = false :=
  ⟨by decide, by decide, by decide⟩

/-- The record used as concrete input for C8: systolic present, diastolic
absent, a non-empty intervention list. -/
def bpMismatchRecord : Record :=
  { build_base_record "ADI-0004" with
    clinical :=
      { (build_base_record "ADI-0004").clinical with
        interventions := ["medicazione"]
        vitals :=
          { blood_pressure_systolic := some 120
            blood_pressure_diastolic := none
            heart_rate := none
            temperature := none
            spo2 := none } } }

/-- **C8, counterexample.** A record with exactly one of the two
blood-pressure fields present receives **no** warning at all from
`quality_check` — there is no systolic/diastolic presence-mismatch check. -/
theorem bp_mismatch_no_warning :
    bpMismatchRecord.clinical.vitals.blood_pressure_systolic = some 120 ∧
      bpMismatchRecord.clinical.vitals.blood_pressure_diastolic = none ∧
      qGet (quality_check bpMismatchRecord) "warnings" = [] :=
  ⟨rfl, rfl, by decide⟩

/-- **C8, amended.** `quality_check` never emits a blood-pressure
presence-mismatch warning: for every record its warnings are drawn from the
three fixed strings (empty interventions, no vitals, vitals intervention
without vitals). -/
theorem quality_warnings_closed_set (rec : Record) :
    ((qGet (quality_check rec) "warnings").all fun w =>
      elemS w
        ["No interventions extracted from note", "No vital signs recorded in note",
         "Vitals intervention present but no vitals extracted"]) = true := by
  have hq : qGet (quality_check rec) "warnings" =
      (if rec.clinical.interventions = [] then ["No interventions extracted from note"]
       else []) ++
      (if !hasAnyVital rec.clinical.vitals then ["No vital signs recorded in note"] else []) ++
      (if elemS "controllo_parametri_vitali" rec.clinical.interventions ∧
          !hasAnyVital rec.clinical.vitals then
        ["Vitals intervention present but no vitals extracted"]
       else []) := rfl
  rw [hq, List.all_eq_true]
  intro w hw
  have hsing : ∀ (c : Prop) [Decidable c] (y : String),
      w ∈ (if c then [y] else []) → w = y := by
    intro c _ y hy
    by_cases hc : c
    · rwa [if_pos hc, List.mem_singleton] at hy
    · rw [if_neg hc] at hy
      exact absurd hy (List.not_mem_nil w)
  rcases List.mem_append.mp hw with hw' | hw3
  · rcases List.mem_append.mp hw' with hw1 | hw2
    · rw [hsing _ _ hw1]
      decide
    · rw [hsing _ _ hw2]
      decide
  · rw [hsing _ _ hw3]
    decide

/-- **C9.** The rules-only pipeline never fills `meta.visit_datetime` (no
strategy invokes the datetime extractor), even though `extract_datetime`
itself succeeds on a `<date> ore <time>` note and returns the ISO-8601
timestamp. -/
theorem visit_datetime_never_set :
    (∀ rid text : String, (runRulesPipeline rid text).meta.visit_datetime = none) ∧
      extract_datetime "Visita 24/02/2026 ore 09:10" = some "2026-02-24T09:10:00" :=
  ⟨fun rid text => rfl, by decide⟩

end ADI
